import Mathlib

/-!
Verification of the node-expansion and model-lifecycle core of the
calliope energy-modeling pipeline.

The Python sources are shallowly embedded:
* `calliope/nodes.py` — `explode_node`, `_generate_node`,
  `generate_node_matrix` (strings as `List Char` / `String`,
  the pandas row table as a `List NodeRecord`);
* `calliope/core/model.py` — `Model.__init__` dispatch, the seeding /
  time-clustering sequence of `_init_from_model_run`, and `Model.run`
  (the xarray dataset as a list of named variables with an `is_result`
  attribute, `Dataset.merge` as `dsMerge`, errors via `Except`).

Python exceptions are represented by the `PyErr` type; `ValueError`,
`KeyError`, `AttributeError` and calliope's `ModelError` as well as
xarray's `MergeError` are distinguished.
-/

/-- Python exception kinds that the embedded code can raise. -/
inductive PyErr where
  | keyError
  | valueError
  | modelError
  | mergeError
  | attributeError
deriving DecidableEq, Repr

/-! ### Character helpers (Python `str` methods on `List Char`) -/

/-- ASCII decimal digit test (`'0' ≤ c ≤ '9'`). -/
def isDigitCh (c : Char) : Bool :=
  decide (48 ≤ c.toNat) && decide (c.toNat ≤ 57)

/-- Whitespace as stripped by Python's `str.strip()` (ASCII part). -/
def isSpaceCh (c : Char) : Bool :=
  decide (c.toNat = 32) || decide (c.toNat = 9) || decide (c.toNat = 10) ||
  decide (c.toNat = 13) || decide (c.toNat = 11) || decide (c.toNat = 12)

/-- Python `s.strip()`: drop leading and trailing whitespace. -/
def pyStrip (l : List Char) : List Char :=
  ((l.dropWhile isSpaceCh).reverse.dropWhile isSpaceCh).reverse

/-- Numeric value of a digit character. -/
def dval (c : Char) : Nat := c.toNat - 48

/-- The decimal digit character for a value below ten. -/
def digitChar (n : Nat) : Char :=
  match n with
  | 0 => '0' | 1 => '1' | 2 => '2' | 3 => '3' | 4 => '4'
  | 5 => '5' | 6 => '6' | 7 => '7' | 8 => '8' | 9 => '9'
  | _ => '*'

/-- Fueled digit expansion of a natural number (most significant first). -/
def natToStrAux : Nat → Nat → List Char
  | 0, _ => []
  | fuel + 1, n =>
    if n < 10 then [digitChar n]
    else natToStrAux fuel (n / 10) ++ [digitChar (n % 10)]

/-- Decimal rendering of a natural number, as Python `str` produces it. -/
def natToStr (n : Nat) : List Char := natToStrAux (n + 1) n

/-- Python `str(i)` for an integer `i`. -/
def intToStr (i : Int) : List Char :=
  if i < 0 then '-' :: natToStr i.natAbs else natToStr i.natAbs

/-- Value of a digit string (no sign), most significant first. -/
def strToNat (l : List Char) : Nat :=
  l.foldl (fun a c => a * 10 + dval c) 0

/-- Python `int(s)` after stripping: optional sign then a nonempty digit
string; anything else raises `ValueError`. -/
def pyIntCore (t : List Char) : Except PyErr Int :=
  match t with
  | [] => .error .valueError
  | c :: rest =>
    if c = '-' then
      if rest ≠ [] ∧ rest.all isDigitCh then .ok (-(strToNat rest : Int))
      else .error .valueError
    else if c = '+' then
      if rest ≠ [] ∧ rest.all isDigitCh then .ok ((strToNat rest : Int))
      else .error .valueError
    else
      if (c :: rest).all isDigitCh then .ok ((strToNat (c :: rest) : Int))
      else .error .valueError

/-- Python `int(s)` (strips surrounding whitespace first). -/
def pyInt (l : List Char) : Except PyErr Int := pyIntCore (pyStrip l)

/-- Python `range(a, b)` as a list of integers. -/
def pyRange (a b : Int) : List Int :=
  (List.range (b - a).toNat).map (fun j : Nat => a + (j : Int))

/-! ### String splitting (Python `str.split` on `','` and `'--'`) -/

/-- Python `k.split(',')` on a character list. -/
def splitComma : List Char → List (List Char)
  | [] => [[]]
  | c :: cs =>
    if c = ',' then [] :: splitComma cs
    else
      match splitComma cs with
      | [] => [[c]]
      | h :: t => (c :: h) :: t

/-- Python `sk.split('--')`: split at each non-overlapping leftmost
occurrence of two consecutive dashes. -/
def splitDD : List Char → List (List Char)
  | [] => [[]]
  | [c] => [[c]]
  | c1 :: c2 :: cs =>
    if c1 = '-' ∧ c2 = '-' then [] :: splitDD cs
    else
      match splitDD (c2 :: cs) with
      | [] => [[c2]]
      | h :: t => (c1 :: h) :: t

/-- Python `'--' in sk`. -/
def containsDD : List Char → Bool
  | c1 :: c2 :: cs => (c1 = '-' && c2 = '-') || containsDD (c2 :: cs)
  | _ => false

/-- Python `',' in k`. -/
def containsComma (l : List Char) : Bool := l.contains ','

/-! ### `explode_node` (calliope/nodes.py) -/

/-- One subkey of `explode_node`: a range `begin--end` is expanded to the
stringified integers of `range(int(begin), int(end)+1)`; a plain subkey is
stripped and used verbatim.  A subkey containing `--` that does not split
into exactly two parts raises `ValueError` (tuple unpacking). -/
def explodeSub (sk : List Char) : Except PyErr (List (List Char)) :=
  if containsDD sk then
    match splitDD sk with
    | [b0, e0] =>
      match pyInt b0 with
      | .error er => .error er
      | .ok bi =>
        match pyInt e0 with
        | .error er => .error er
        | .ok ei => .ok ((pyRange bi (ei + 1)).map (fun i => pyStrip (intToStr i)))
    | _ => .error .valueError
  else .ok [pyStrip sk]

/-- Accumulation of the subkey expansions, in subkey order. -/
def explodeParts : List (List Char) → Except PyErr (List (List Char))
  | [] => .ok []
  | sk :: rest =>
    match explodeSub sk with
    | .error er => .error er
    | .ok ks =>
      match explodeParts rest with
      | .error er => .error er
      | .ok ks' => .ok (ks ++ ks')

/-- The expansion of a full key before the final emptiness check. -/
def explodeRaw (k : List Char) : Except PyErr (List (List Char)) :=
  explodeParts (splitComma k)

/-- `explode_node` on a character list: the expansion, then
`raise KeyError('Empty key')` when the result is `[]` or `['']`. -/
def explodeNode (k : List Char) : Except PyErr (List (List Char)) :=
  match explodeRaw k with
  | .error er => .error er
  | .ok fk => if fk = [] ∨ fk = [[]] then .error .keyError else .ok fk

/-- `explode_node` on Lean strings. -/
def explode_node (k : String) : Except PyErr (List String) :=
  match explodeNode k.data with
  | .error er => .error er
  | .ok l => .ok (l.map String.mk)

deriving instance DecidableEq for Except

/-! ### Node records and the node matrix (calliope/nodes.py) -/

/-- Per-node settings as passed to `_generate_node` (`items`): grouping
level, containment zone, flattened override pairs, and the node's
permitted-technology list. -/
structure NodeConfig where
  level : String
  within : String
  override : List (String × String)
  techs : List String
deriving DecidableEq, Repr

/-- One row of the node matrix: the `_node`, `_level`, `_within` and
`_override.*` entries plus one `(technology, flag)` pair per global
technology. -/
structure NodeRecord where
  node : String
  level : String
  within : String
  override : List (String × String)
  techFlags : List (String × Nat)
deriving DecidableEq, Repr

/-- `_generate_node(node, items, techs)`: the row dict for one node. -/
def _generate_node (node : String) (items : NodeConfig) (techs : List String) :
    NodeRecord :=
  { node := node
    level := items.level
    within := items.within
    override := items.override.map (fun p => ("_override." ++ p.1, p.2))
    techFlags := techs.map (fun y => (y, if y ∈ items.techs then 1 else 0)) }

/-- The compactness test of `generate_node_matrix`:
`'--' in k or ',' in k`. -/
def isCompactKey (k : String) : Bool :=
  containsDD k.data || containsComma k.data

/-- The row-collection loop of `generate_node_matrix`: compact keys are
exploded and every resulting node gets the entry's settings; other keys
are used verbatim. -/
def collectRows (d : List (String × NodeConfig)) (techs : List String) :
    Except PyErr (List NodeRecord) :=
  match d with
  | [] => .ok []
  | kv :: rest =>
    if isCompactKey kv.1 then
      match explode_node kv.1 with
      | .error er => .error er
      | .ok ns =>
        match collectRows rest techs with
        | .error er => .error er
        | .ok rest' => .ok (ns.map (fun n => _generate_node n kv.2 techs) ++ rest')
    else
      match collectRows rest techs with
      | .error er => .error er
      | .ok rest' => .ok (_generate_node kv.1 kv.2 techs :: rest')

/-- `generate_node_matrix(d, techs)`: the collected rows as a DataFrame
indexed by `_node`.  An empty row list makes `df._node` raise
`AttributeError` (pandas has no `_node` column on an empty frame). -/
def generate_node_matrix (d : List (String × NodeConfig)) (techs : List String) :
    Except PyErr (List NodeRecord) :=
  match collectRows d techs with
  | .error er => .error er
  | .ok rows => if rows = [] then .error .attributeError else .ok rows

/-- The sequence of explicit node identifiers denoted by a
node-configuration mapping, duplicates included, in expansion order
(compact keys exploded, other keys verbatim). -/
def explicitNodes (d : List (String × NodeConfig)) : Except PyErr (List String) :=
  match d with
  | [] => .ok []
  | kv :: rest =>
    if isCompactKey kv.1 then
      match explode_node kv.1 with
      | .error er => .error er
      | .ok ns =>
        match explicitNodes rest with
        | .error er => .error er
        | .ok ns' => .ok (ns ++ ns')
    else
      match explicitNodes rest with
      | .error er => .error er
      | .ok ns' => .ok (kv.1 :: ns')

/-! ### Model lifecycle (calliope/core/model.py) -/

/-- One xarray data variable: a name, its payload (abstracted to an
integer), and the optional `is_result` attribute. -/
structure DVar where
  name : String
  val : Int
  is_result : Option Nat
deriving DecidableEq, Repr

/-- The mutable state a `Model` carries across `run`: the dataset-level
attributes, the `_model_data` variables, and the `results` view when the
attribute `results` exists on the object. -/
structure ModelState where
  attrs : List (String × String)
  model_data : List DVar
  results : Option (List DVar)
deriving DecidableEq, Repr

/-- Lookup of a dataset-level attribute (`ds.attrs[key]`). -/
def lookupAttr (attrs : List (String × String)) (k : String) : Option String :=
  (attrs.find? (fun p => p.1 == k)).map Prod.snd

/-- `ds.filter_by_attrs(is_result=v)`: the variables whose `is_result`
attribute is present and equal to `v`. -/
def filterByIsResult (ds : List DVar) (v : Nat) : List DVar :=
  ds.filter (fun x => x.is_result == some v)

/-- The tagging loop of `run`: set `is_result = 1` on every variable of
the backend's results dataset. -/
def tagResults (r : List DVar) : List DVar :=
  r.map (fun v => { v with is_result := some 1 })

/-- xarray `Dataset.merge` under the default `no_conflicts` policy: a
variable of the right dataset whose name exists on the left must carry
the same values, else `MergeError`; on success the left variable (with
the left attributes) is kept and genuinely new variables are appended. -/
def dsMerge (l : List DVar) : List DVar → Except PyErr (List DVar)
  | [] => .ok l
  | v :: rest =>
    match l.find? (fun w => w.name == v.name) with
    | some w => if w.val = v.val then dsMerge l rest else .error .mergeError
    | none => dsMerge (l ++ [v]) rest

/-- `Model.run(force_rerun)`: the guard against overwriting results, the
backend lookup in `BACKEND_RUNNERS`, the `is_result = 1` tagging, the
merge into `_model_data` and the re-derivation of the `results` view.
The backend call itself is an external collaborator, so its returned
results dataset is a parameter.  Errors carry the model state as it
stands when the exception is raised. -/
def Model.run (st : ModelState) (backendResults : List DVar) (force_rerun : Bool) :
    Except (PyErr × ModelState) ModelState :=
  if st.results.isSome && !force_rerun then
    .error (.modelError, st)
  else
    match lookupAttr st.attrs "run.backend" with
    | none => .error (.keyError, st)
    | some b =>
      if b = "pyomo" then
        match dsMerge st.model_data (tagResults backendResults) with
        | .error er => .error (er, st)
        | .ok merged =>
          .ok { st with
                model_data := merged
                results := some (filterByIsResult merged 1) }
      else .error (.keyError, st)

/-- The `config` argument of `Model.__init__`: a path string, a dict, an
explicit `None`, or a value of any other type. -/
inductive ConfigArg where
  | pathStr (s : String)
  | confDict
  | noneArg
  | otherArg
deriving DecidableEq, Repr

/-- Which construction path `Model.__init__` takes. -/
inductive InitOutcome where
  | fromPath (s : String)
  | fromDict
  | fromData
deriving DecidableEq, Repr

/-- The dispatch of `Model.__init__(config, model_data)`: a string is a
run-configuration path, a dict is an in-memory configuration, a dataset
is used only when `config` is explicitly `None`, and anything else
raises `ValueError`. -/
def Model.init (config : ConfigArg) (model_data : Option (List DVar)) :
    Except PyErr InitOutcome :=
  match config with
  | .pathStr s => .ok (.fromPath s)
  | .confDict => .ok .fromDict
  | .noneArg =>
    match model_data with
    | some _ => .ok .fromData
    | none => .error .valueError
  | .otherArg => .error .valueError

/-! ### Seeding and time clustering (`Model._init_from_model_run`) -/

/-- The configuration fields read by the seeding / clustering sequence:
`run.random_seed` (absent modelled as `none`) and whether a truthy
`model.time` section is present. -/
structure ModelRunCfg where
  random_seed : Option Int
  has_time_config : Bool
deriving DecidableEq, Repr

/-- The state of the global numpy random generator after the
`if random_seed: np.random.seed(seed=random_seed)` step: a falsy seed
(`None` or `0`) leaves the ambient generator state untouched. -/
def seededState (random_seed : Option Int) (ambient : Int) : Int :=
  match random_seed with
  | some s => if s ≠ 0 then s else ambient
  | none => ambient

/-- The time-processing tail of `_init_from_model_run`: seed first, then
cluster only when a time configuration is present, then apply the final
time-dimension processing.  `cluster` (reading the generator state) and
`finalize` are external collaborators, datasets are abstracted to
integers. -/
def buildTimeData (cluster : Int → Int → Int) (finalize : Int → Int)
    (mr : ModelRunCfg) (ambient : Int) (d : Int) : Int :=
  if mr.has_time_config then finalize (cluster (seededState mr.random_seed ambient) d)
  else finalize d

/-! ### Digit and rendering lemmas -/

theorem digitChar_isDigit : ∀ d, d < 10 → isDigitCh (digitChar d) = true := by decide

theorem dval_digitChar : ∀ d, d < 10 → dval (digitChar d) = d := by decide

theorem natToStrAux_fuel_eq (n : Nat) : ∀ f1 f2, n < f1 → n < f2 →
    natToStrAux f1 n = natToStrAux f2 n := by
  induction n using Nat.strong_induction_on with
  | _ n ih =>
    intro f1 f2 h1 h2
    cases f1 with
    | zero => omega
    | succ g1 =>
      cases f2 with
      | zero => omega
      | succ g2 =>
        by_cases h : n < 10
        · simp [natToStrAux, h]
        · have hd : n / 10 < n := Nat.div_lt_self (by omega) (by omega)
          simp only [natToStrAux, if_neg h]
          rw [ih (n / 10) hd g1 g2 (by omega) (by omega)]

theorem natToStr_eq (n : Nat) :
    natToStr n =
      if n < 10 then [digitChar n]
      else natToStr (n / 10) ++ [digitChar (n % 10)] := by
  by_cases h : n < 10
  · rw [if_pos h]
    show natToStrAux (n + 1) n = _
    simp [natToStrAux, h]
  · rw [if_neg h]
    show natToStrAux (n + 1) n = natToStrAux (n / 10 + 1) (n / 10) ++ [digitChar (n % 10)]
    have hd : n / 10 < n := Nat.div_lt_self (by omega) (by omega)
    conv_lhs => rw [natToStrAux]
    rw [if_neg h, natToStrAux_fuel_eq (n / 10) n (n / 10 + 1) (by omega) (by omega)]

theorem natToStr_ne_nil (n : Nat) : natToStr n ≠ [] := by
  rw [natToStr_eq]
  split <;> simp

theorem natToStr_digits (n : Nat) : ∀ c ∈ natToStr n, isDigitCh c = true := by
  induction n using Nat.strong_induction_on with
  | _ n ih =>
    rw [natToStr_eq]
    by_cases h : n < 10
    · rw [if_pos h]
      intro c hc
      rw [List.mem_singleton.mp hc]
      exact digitChar_isDigit n h
    · rw [if_neg h]
      intro c hc
      rcases List.mem_append.mp hc with h1 | h2
      · exact ih (n / 10) (Nat.div_lt_self (by omega) (by omega)) c h1
      · rw [List.mem_singleton.mp h2]
        exact digitChar_isDigit (n % 10) (Nat.mod_lt n (by omega))

theorem isDigitCh_bounds (c : Char) (h : isDigitCh c = true) :
    48 ≤ c.toNat ∧ c.toNat ≤ 57 := by
  simpa [isDigitCh, Bool.and_eq_true, decide_eq_true_eq] using h

theorem digit_ne_dash (c : Char) (h : isDigitCh c = true) : c ≠ '-' := by
  intro he
  rw [he] at h
  exact absurd h (by decide)

theorem digit_ne_plus (c : Char) (h : isDigitCh c = true) : c ≠ '+' := by
  intro he
  rw [he] at h
  exact absurd h (by decide)

theorem digit_ne_comma (c : Char) (h : isDigitCh c = true) : c ≠ ',' := by
  intro he
  rw [he] at h
  exact absurd h (by decide)

theorem digit_not_space (c : Char) (h : isDigitCh c = true) : isSpaceCh c = false := by
  have hb := isDigitCh_bounds c h
  simp only [isSpaceCh, Bool.or_eq_false_iff, decide_eq_false_iff_not]
  omega

theorem dropWhile_of_forall_not {p : Char → Bool} :
    ∀ l : List Char, (∀ c ∈ l, p c = false) → l.dropWhile p = l := by
  intro l h
  cases l with
  | nil => rfl
  | cons c cs =>
    have : p c = false := h c (List.mem_cons_self c cs)
    simp [List.dropWhile, this]

theorem pyStrip_eq_self (l : List Char) (h : ∀ c ∈ l, isSpaceCh c = false) :
    pyStrip l = l := by
  unfold pyStrip
  rw [dropWhile_of_forall_not l h,
    dropWhile_of_forall_not l.reverse (fun c hc => h c (List.mem_reverse.mp hc)),
    List.reverse_reverse]

theorem strToNat_append_digit (xs : List Char) (c : Char) :
    strToNat (xs ++ [c]) = strToNat xs * 10 + dval c := by
  unfold strToNat
  rw [List.foldl_append]
  rfl

theorem strToNat_natToStr (n : Nat) : strToNat (natToStr n) = n := by
  induction n using Nat.strong_induction_on with
  | _ n ih =>
    rw [natToStr_eq]
    by_cases h : n < 10
    · rw [if_pos h]
      show 0 * 10 + dval (digitChar n) = n
      rw [dval_digitChar n h]
      omega
    · rw [if_neg h, strToNat_append_digit,
        ih (n / 10) (Nat.div_lt_self (by omega) (by omega)),
        dval_digitChar (n % 10) (Nat.mod_lt n (by omega))]
      omega

/-! ### Lemmas about `intToStr` and the splitters -/

theorem intToStr_ne_nil (i : Int) : intToStr i ≠ [] := by
  unfold intToStr
  split
  · simp
  · exact natToStr_ne_nil _

theorem intToStr_chars (i : Int) :
    ∀ c ∈ intToStr i, isDigitCh c = true ∨ c = '-' := by
  unfold intToStr
  split
  · intro c hc
    rcases List.mem_cons.mp hc with h1 | h2
    · exact Or.inr h1
    · exact Or.inl (natToStr_digits _ c h2)
  · intro c hc
    exact Or.inl (natToStr_digits _ c hc)

theorem intToStr_no_comma (i : Int) : ∀ c ∈ intToStr i, c ≠ ',' := by
  intro c hc
  rcases intToStr_chars i c hc with h | h
  · exact digit_ne_comma c h
  · rw [h]
    decide

theorem intToStr_no_space (i : Int) : ∀ c ∈ intToStr i, isSpaceCh c = false := by
  intro c hc
  rcases intToStr_chars i c hc with h | h
  · exact digit_not_space c h
  · rw [h]
    decide

theorem pyStrip_intToStr (i : Int) : pyStrip (intToStr i) = intToStr i :=
  pyStrip_eq_self _ (intToStr_no_space i)

theorem splitComma_no_comma (l : List Char) (h : ∀ c ∈ l, c ≠ ',') :
    splitComma l = [l] := by
  induction l with
  | nil => rfl
  | cons c cs ih =>
    have hc : ¬(c = ',') := h c (List.mem_cons_self c cs)
    rw [splitComma, if_neg hc, ih (fun x hx => h x (List.mem_cons_of_mem c hx))]

theorem intToStr_neg (i : Int) (h : i < 0) :
    intToStr i = '-' :: natToStr i.natAbs := by
  unfold intToStr
  rw [if_pos h]

theorem intToStr_nonneg (i : Int) (h : ¬i < 0) :
    intToStr i = natToStr i.natAbs := by
  unfold intToStr
  rw [if_neg h]

theorem splitDD_digits (l : List Char) (h : ∀ c ∈ l, isDigitCh c = true) :
    splitDD l = [l] := by
  induction l with
  | nil => rfl
  | cons c cs ih =>
    cases cs with
    | nil => rfl
    | cons c2 cs2 =>
      have hc : c ≠ '-' := digit_ne_dash c (h c (List.mem_cons_self _ _))
      rw [splitDD.eq_3, if_neg (by tauto),
        ih (fun x hx => h x (List.mem_cons_of_mem c hx))]

theorem splitDD_neg_digits (d : Char) (ds : List Char)
    (h : ∀ c ∈ d :: ds, isDigitCh c = true) :
    splitDD ('-' :: d :: ds) = ['-' :: d :: ds] := by
  have hd : d ≠ '-' := digit_ne_dash d (h d (List.mem_cons_self _ _))
  rw [splitDD.eq_3, if_neg (by tauto), splitDD_digits (d :: ds) h]

theorem splitDD_append_digits (l : List Char) (r : List Char)
    (h : ∀ c ∈ l, isDigitCh c = true) :
    splitDD (l ++ '-' :: '-' :: r) = l :: splitDD r := by
  induction l with
  | nil =>
    show splitDD ('-' :: '-' :: r) = [] :: splitDD r
    rw [splitDD.eq_3, if_pos ⟨rfl, rfl⟩]
  | cons c cs ih =>
    have hc : c ≠ '-' := digit_ne_dash c (h c (List.mem_cons_self _ _))
    cases cs with
    | nil =>
      show splitDD (c :: '-' :: '-' :: r) = [c] :: splitDD r
      have hdd : splitDD ('-' :: '-' :: r) = [] :: splitDD r := by
        rw [splitDD.eq_3, if_pos ⟨rfl, rfl⟩]
      rw [splitDD.eq_3, if_neg (by tauto), hdd]
    | cons c2 cs2 =>
      have ih' := ih (fun x hx => h x (List.mem_cons_of_mem c hx))
      simp only [List.cons_append] at ih' ⊢
      rw [splitDD.eq_3, if_neg (by tauto), ih']

theorem splitDD_neg_append (d : Char) (ds : List Char) (r : List Char)
    (h : ∀ c ∈ d :: ds, isDigitCh c = true) :
    splitDD (('-' :: d :: ds) ++ '-' :: '-' :: r) = ('-' :: d :: ds) :: splitDD r := by
  have hd : d ≠ '-' := digit_ne_dash d (h d (List.mem_cons_self _ _))
  have hap := splitDD_append_digits (d :: ds) r h
  simp only [List.cons_append] at hap ⊢
  rw [splitDD.eq_3, if_neg (by tauto), hap]

theorem containsDD_dd (r : List Char) : containsDD ('-' :: '-' :: r) = true := by
  rw [containsDD.eq_1]
  simp

theorem containsDD_append_dd (l : List Char) (r : List Char) :
    containsDD (l ++ '-' :: '-' :: r) = true := by
  induction l with
  | nil => exact containsDD_dd r
  | cons c cs ih =>
    cases cs with
    | nil =>
      show containsDD (c :: '-' :: '-' :: r) = true
      rw [containsDD.eq_1, containsDD_dd r]
      simp
    | cons c2 cs2 =>
      have ih' := ih
      simp only [List.cons_append] at ih' ⊢
      rw [containsDD.eq_1, ih']
      simp

theorem intToStr_shape (i : Int) :
    (∀ c ∈ intToStr i, isDigitCh c = true) ∨
      ∃ d ds, intToStr i = '-' :: d :: ds ∧ ∀ c ∈ d :: ds, isDigitCh c = true := by
  by_cases h : i < 0
  · right
    cases hn : natToStr i.natAbs with
    | nil => exact absurd hn (natToStr_ne_nil _)
    | cons d ds =>
      refine ⟨d, ds, ?_, ?_⟩
      · rw [intToStr_neg i h, hn]
      · rw [← hn]
        exact natToStr_digits _
  · left
    rw [intToStr_nonneg i h]
    exact natToStr_digits _

theorem splitDD_intToStr (i : Int) : splitDD (intToStr i) = [intToStr i] := by
  rcases intToStr_shape i with h | ⟨d, ds, he, hd⟩
  · exact splitDD_digits _ h
  · rw [he]
    exact splitDD_neg_digits d ds hd

theorem splitDD_intToStr_append (i : Int) (r : List Char) :
    splitDD (intToStr i ++ '-' :: '-' :: r) = intToStr i :: splitDD r := by
  rcases intToStr_shape i with h | ⟨d, ds, he, hd⟩
  · exact splitDD_append_digits _ r h
  · rw [he]
    exact splitDD_neg_append d ds r hd

theorem splitDD_intToStr_pair (a b : Int) :
    splitDD (intToStr a ++ '-' :: '-' :: intToStr b) = [intToStr a, intToStr b] := by
  rw [splitDD_intToStr_append, splitDD_intToStr]

theorem pyInt_intToStr (i : Int) : pyInt (intToStr i) = .ok i := by
  unfold pyInt
  rw [pyStrip_intToStr]
  by_cases h : i < 0
  · rw [intToStr_neg i h]
    have hne := natToStr_ne_nil i.natAbs
    have hall : (natToStr i.natAbs).all isDigitCh = true :=
      List.all_eq_true.mpr (natToStr_digits _)
    rw [pyIntCore, if_pos rfl, if_pos ⟨hne, hall⟩, strToNat_natToStr]
    have he : -(i.natAbs : Int) = i := by omega
    rw [he]
  · rw [intToStr_nonneg i h]
    cases hn : natToStr i.natAbs with
    | nil => exact absurd hn (natToStr_ne_nil _)
    | cons c cs =>
      have hcd : isDigitCh c = true :=
        natToStr_digits i.natAbs c (by rw [hn]; exact List.mem_cons_self c cs)
      have hall : (c :: cs).all isDigitCh = true := by
        rw [← hn]
        exact List.all_eq_true.mpr (natToStr_digits _)
      rw [pyIntCore, if_neg (digit_ne_dash c hcd), if_neg (digit_ne_plus c hcd),
        if_pos hall, ← hn, strToNat_natToStr]
      have he : (i.natAbs : Int) = i := by omega
      rw [he]

/-! ### The range expansion of `explode_node` -/

theorem rangeKey_no_comma (a b : Int) :
    ∀ c ∈ intToStr a ++ '-' :: '-' :: intToStr b, c ≠ ',' := by
  intro c hc
  rcases List.mem_append.mp hc with h1 | h2
  · exact intToStr_no_comma a c h1
  · rcases List.mem_cons.mp h2 with h3 | h4
    · rw [h3]; decide
    · rcases List.mem_cons.mp h4 with h5 | h6
      · rw [h5]; decide
      · exact intToStr_no_comma b c h6

theorem explodeSub_range (a b : Int) :
    explodeSub (intToStr a ++ '-' :: '-' :: intToStr b) =
      .ok ((List.range (b + 1 - a).toNat).map (fun j : Nat => intToStr (a + (j : Int)))) := by
  unfold explodeSub
  rw [if_pos (containsDD_append_dd _ _), splitDD_intToStr_pair]
  show (match pyInt (intToStr a) with
    | .error er => (.error er : Except PyErr (List (List Char)))
    | .ok bi =>
      match pyInt (intToStr b) with
      | .error er => .error er
      | .ok ei => .ok ((pyRange bi (ei + 1)).map (fun i => pyStrip (intToStr i)))) = _
  rw [pyInt_intToStr, pyInt_intToStr]
  show (Except.ok ((pyRange a (b + 1)).map (fun i => pyStrip (intToStr i))) :
    Except PyErr (List (List Char))) =
      .ok ((List.range (b + 1 - a).toNat).map (fun j : Nat => intToStr (a + (j : Int))))
  rw [List.map_congr_left (fun x _ => pyStrip_intToStr x)]
  unfold pyRange
  rw [List.map_map]
  rfl

theorem explodeRaw_range (a b : Int) :
    explodeRaw (intToStr a ++ '-' :: '-' :: intToStr b) =
      .ok ((List.range (b + 1 - a).toNat).map (fun j : Nat => intToStr (a + (j : Int)))) := by
  unfold explodeRaw
  rw [splitComma_no_comma _ (rangeKey_no_comma a b)]
  show (match explodeSub (intToStr a ++ '-' :: '-' :: intToStr b) with
    | .error er => (.error er : Except PyErr (List (List Char)))
    | .ok ks =>
      match explodeParts [] with
      | .error er => .error er
      | .ok ks' => .ok (ks ++ ks')) = _
  rw [explodeSub_range]
  show Except.ok (_ ++ []) = _
  rw [List.append_nil]

theorem explodeNode_range (a b : Int) (h : a ≤ b) :
    explodeNode (intToStr a ++ '-' :: '-' :: intToStr b) =
      .ok ((List.range (b + 1 - a).toNat).map (fun j : Nat => intToStr (a + (j : Int)))) := by
  have hlen : ((List.range (b + 1 - a).toNat).map
      (fun j : Nat => intToStr (a + (j : Int)))).length = (b + 1 - a).toNat := by
    rw [List.length_map, List.length_range]
  have hne : ¬((List.range (b + 1 - a).toNat).map (fun j : Nat => intToStr (a + (j : Int))) = []
      ∨ (List.range (b + 1 - a).toNat).map (fun j : Nat => intToStr (a + (j : Int))) = [[]]) := by
    rintro (he | he)
    · rw [he] at hlen
      simp only [List.length_nil] at hlen
      omega
    · have hm : ([] : List Char) ∈ (List.range (b + 1 - a).toNat).map
          (fun j : Nat => intToStr (a + (j : Int))) := by
        rw [he]
        exact List.mem_singleton.mpr rfl
      rcases List.mem_map.mp hm with ⟨j, hj1, hj2⟩
      exact intToStr_ne_nil _ hj2
  unfold explodeNode
  rw [explodeRaw_range]
  show (if (List.range (b + 1 - a).toNat).map (fun j : Nat => intToStr (a + (j : Int))) = []
      ∨ (List.range (b + 1 - a).toNat).map (fun j : Nat => intToStr (a + (j : Int))) = [[]]
    then (Except.error PyErr.keyError : Except PyErr (List (List Char)))
    else .ok ((List.range (b + 1 - a).toNat).map (fun j : Nat => intToStr (a + (j : Int))))) =
      .ok ((List.range (b + 1 - a).toNat).map (fun j : Nat => intToStr (a + (j : Int))))
  rw [if_neg hne]

/-! ### Error analysis of the expansion -/

theorem pyIntCore_error (t : List Char) (er : PyErr)
    (h : pyIntCore t = .error er) : er = .valueError := by
  cases t with
  | nil =>
    injection h with h1
    exact h1.symm
  | cons c rest =>
    simp only [pyIntCore] at h
    split_ifs at h <;> injection h with h1 <;> exact h1.symm

theorem explodeSub_error (sk : List Char) (er : PyErr)
    (h : explodeSub sk = .error er) : er = .valueError := by
  unfold explodeSub at h
  split at h
  · split at h
    · split at h
      · rename_i her
        injection h with h1
        rw [← h1]
        exact pyIntCore_error _ _ her
      · split at h
        · rename_i her
          injection h with h1
          rw [← h1]
          exact pyIntCore_error _ _ her
        · exact Except.noConfusion h
    · injection h with h1
      exact h1.symm
  · exact Except.noConfusion h

theorem explodeParts_error (l : List (List Char)) :
    ∀ er : PyErr, explodeParts l = .error er → er = .valueError := by
  induction l with
  | nil =>
    intro er h
    exact Except.noConfusion h
  | cons sk rest ih =>
    intro er h
    unfold explodeParts at h
    split at h
    · rename_i her
      injection h with h1
      rw [← h1]
      exact explodeSub_error _ _ her
    · split at h
      · rename_i her
        injection h with h1
        rw [← h1]
        exact ih _ her
      · exact Except.noConfusion h

theorem explodeNode_error_case (k : List Char) (er : PyErr)
    (h : explodeRaw k = .error er) : explodeNode k = .error er := by
  unfold explodeNode
  rw [h]

theorem explodeNode_ok_case (k : List Char) (fk : List (List Char))
    (h : explodeRaw k = .ok fk) :
    explodeNode k = if fk = [] ∨ fk = [[]] then .error .keyError else .ok fk := by
  unfold explodeNode
  rw [h]

theorem explode_node_eq (k : String) :
    explode_node k =
      match explodeNode k.data with
      | .error er => .error er
      | .ok l => .ok (l.map String.mk) := rfl

/-! ### Claim C1 -/

/-- C1: for every compact key of the form `a--b` with integers `a ≤ b`,
`explode_node` returns exactly `b - a + 1` identifiers, namely the decimal
string forms of `a, a+1, …, b` in ascending order (the `j`-th identifier
is `str(a+j)`), and subkey order is preserved across commas, so expanding
`"1--3,6,9--11,a"` returns `['1','2','3','6','9','10','11','a']`. -/
theorem explode_node_range_ascending (a b : Int) (h : a ≤ b) :
    explode_node (String.mk (intToStr a ++ '-' :: '-' :: intToStr b)) =
      .ok ((List.range (b + 1 - a).toNat).map
        (fun j : Nat => String.mk (intToStr (a + (j : Int))))) ∧
    ((List.range (b + 1 - a).toNat).map
      (fun j : Nat => String.mk (intToStr (a + (j : Int))))).length = (b - a + 1).toNat ∧
    explode_node "1--3,6,9--11,a" = .ok ["1", "2", "3", "6", "9", "10", "11", "a"] := by
  refine ⟨?_, ?_, rfl⟩
  · show (match explodeNode (intToStr a ++ '-' :: '-' :: intToStr b) with
      | .error er => (.error er : Except PyErr (List String))
      | .ok l => .ok (l.map String.mk)) = _
    rw [explodeNode_range a b h]
    show Except.ok (((List.range (b + 1 - a).toNat).map
      (fun j : Nat => intToStr (a + (j : Int)))).map String.mk) = _
    rw [List.map_map]
    rfl
  · rw [List.length_map, List.length_range]
    omega

/-- Witness for C1 at the concrete range key `1--3`. -/
theorem explode_node_range_ascending_witness :
    (1 : Int) ≤ 3 ∧
    explode_node (String.mk (intToStr 1 ++ '-' :: '-' :: intToStr 3)) =
      .ok ((List.range ((3 : Int) + 1 - 1).toNat).map
        (fun j : Nat => String.mk (intToStr (1 + (j : Int))))) :=
  ⟨by decide, (explode_node_range_ascending 1 3 (by decide)).1⟩

/-! ### Claim C7 -/

/-- C7 (counterexample): the all-comma strings `","` and `",,"` do not
raise at all — `explode_node` returns lists of blank identifiers. -/
theorem explode_node_all_comma_ok :
    explode_node "," = .ok ["", ""] ∧ explode_node ",," = .ok ["", "", ""] :=
  ⟨rfl, rfl⟩

/-- C7 (amended): `explode_node` fails — with `KeyError`, not a
configuration error — exactly when the net expansion is the empty list or
the single blank identifier; this covers the empty string and a single
blank input, but an all-comma string expands to several blank identifiers
and succeeds. -/
theorem explode_node_keyError_iff (k : String) :
    explode_node k = .error .keyError ↔
      explodeRaw k.data = .ok [] ∨ explodeRaw k.data = .ok [[]] := by
  cases hr : explodeRaw k.data with
  | error er =>
    have hv : er = .valueError := explodeParts_error _ er hr
    subst hv
    rw [explode_node_eq, explodeNode_error_case k.data _ hr]
    constructor
    · intro hcontra
      injection hcontra with h1
      exact absurd h1 (by decide)
    · rintro (hcontra | hcontra) <;> exact Except.noConfusion hcontra
  | ok fk =>
    rw [explode_node_eq, explodeNode_ok_case k.data fk hr]
    by_cases hc : fk = [] ∨ fk = [[]]
    · rw [if_pos hc]
      constructor
      · intro _
        rcases hc with h | h
        · exact Or.inl (by rw [h])
        · exact Or.inr (by rw [h])
      · intro _
        rfl
    · rw [if_neg hc]
      constructor
      · intro hcontra
        exact Except.noConfusion hcontra
      · intro hor
        exfalso
        apply hc
        rcases hor with h1 | h1
        · injection h1 with h2
          exact Or.inl h2
        · injection h1 with h2
          exact Or.inr h2

/-- Witness for C7: the empty string does raise the `KeyError`. -/
theorem explode_node_keyError_iff_witness :
    explode_node "" = .error .keyError :=
  (explode_node_keyError_iff "").mpr (Or.inr rfl)

/-! ### Node-matrix structure lemmas -/

theorem generate_node_matrix_ok (d : List (String × NodeConfig)) (techs : List String)
    (t : List NodeRecord) (h : generate_node_matrix d techs = .ok t) :
    collectRows d techs = .ok t := by
  unfold generate_node_matrix at h
  split at h
  · exact Except.noConfusion h
  · split at h
    · exact Except.noConfusion h
    · rename_i rows hrows hne
      injection h with h1
      rw [hrows, h1]

theorem collectRows_spec (techs : List String) :
    ∀ (d : List (String × NodeConfig)) (t : List NodeRecord),
      collectRows d techs = .ok t →
      explicitNodes d = .ok (t.map NodeRecord.node) ∧
      ∀ rec ∈ t, ∃ kv ∈ d,
        rec.techFlags = techs.map (fun y => (y, if y ∈ kv.2.techs then 1 else 0)) := by
  intro d
  induction d with
  | nil =>
    intro t h
    injection h with h1
    constructor
    · rw [← h1]
      rfl
    · intro rec hrec
      rw [← h1] at hrec
      exact absurd hrec (List.not_mem_nil rec)
  | cons kv rest ih =>
    intro t h
    unfold collectRows at h
    by_cases hck : isCompactKey kv.1
    · rw [if_pos hck] at h
      split at h
      · exact Except.noConfusion h
      · rename_i ns hns
        split at h
        · exact Except.noConfusion h
        · rename_i rest' hrest
          injection h with h1
          rcases ih rest' hrest with ⟨ihn, ihf⟩
          constructor
          · unfold explicitNodes
            rw [if_pos hck, hns, ihn, ← h1]
            rw [List.map_append, List.map_map]
            have hid : ns.map (NodeRecord.node ∘ fun n => _generate_node n kv.2 techs)
                = ns :=
              (List.map_congr_left (fun x _ => rfl)).trans (List.map_id ns)
            rw [hid]
          · intro rec hrec
            rw [← h1] at hrec
            rcases List.mem_append.mp hrec with hm | hm
            · rcases List.mem_map.mp hm with ⟨n, hn1, hn2⟩
              exact ⟨kv, List.mem_cons_self kv rest, by rw [← hn2]; rfl⟩
            · rcases ihf rec hm with ⟨kv', hkv', hflags⟩
              exact ⟨kv', List.mem_cons_of_mem kv hkv', hflags⟩
    · rw [if_neg hck] at h
      split at h
      · exact Except.noConfusion h
      · rename_i rest' hrest
        injection h with h1
        rcases ih rest' hrest with ⟨ihn, ihf⟩
        constructor
        · unfold explicitNodes
          rw [if_neg hck, ihn, ← h1]
          rfl
        · intro rec hrec
          rw [← h1] at hrec
          rcases List.mem_cons.mp hrec with hm | hm
          · exact ⟨kv, List.mem_cons_self kv rest, by rw [hm]; rfl⟩
          · rcases ihf rec hm with ⟨kv', hkv', hflags⟩
            exact ⟨kv', List.mem_cons_of_mem kv hkv', hflags⟩

/-! ### Claim C6 -/

/-- C6 (counterexample): a technology in the node's permitted list that is
absent from the global list raises nothing — `_generate_node` returns
normally and the unknown technology simply does not appear in the row. -/
theorem generate_node_unknown_tech_no_error :
    _generate_node "n1" ⟨"1", "w", [], ["wind"]⟩ ["solar"] =
      ⟨"n1", "1", "w", [], [("solar", 0)]⟩ ∧
    "wind" ∉ ((_generate_node "n1" ⟨"1", "w", [], ["wind"]⟩ ["solar"]).techFlags.map
      Prod.fst) := by
  constructor
  · rfl
  · decide

/-- C6 (amended): a technology in a node's permitted list that is absent
from the global technology list is silently ignored, never an error: the
record is identical to the one built after removing unknown technologies
from the permitted list, and its flag keys are exactly the global list. -/
theorem generate_node_unknown_tech_ignored (node : String) (items : NodeConfig)
    (techs : List String) :
    _generate_node node items techs =
      _generate_node node
        { items with techs := items.techs.filter (fun t => decide (t ∈ techs)) } techs ∧
    (_generate_node node items techs).techFlags.map Prod.fst = techs := by
  constructor
  · have hflags : techs.map (fun y => (y, if y ∈ items.techs then 1 else 0)) =
        techs.map (fun y =>
          (y, if y ∈ items.techs.filter (fun t => decide (t ∈ techs)) then 1 else 0)) := by
      refine List.map_congr_left (fun y hy => ?_)
      have hiff : y ∈ items.techs ↔
          y ∈ items.techs.filter (fun t => decide (t ∈ techs)) := by
        simp [List.mem_filter, hy]
      rw [Prod.mk.injEq]
      exact ⟨rfl, if_congr hiff rfl rfl⟩
    unfold _generate_node
    rw [hflags]
  · unfold _generate_node
    show List.map Prod.fst (techs.map (fun y => (y, if y ∈ items.techs then 1 else 0)))
      = techs
    rw [List.map_map]
    exact (List.map_congr_left (fun x _ => rfl)).trans (List.map_id techs)

/-! ### Claim C8 -/

/-- C8: whenever `generate_node_matrix` returns a table, the table has
exactly one record per explicit node of the expansion (same identifiers,
same order, duplicates included), and every record carries exactly one
flag per global technology, each flag being 0 or 1 and equal to 1 exactly
when the technology is in that node's permitted list. -/
theorem node_matrix_invariants (d : List (String × NodeConfig)) (techs : List String)
    (t : List NodeRecord) (h : generate_node_matrix d techs = .ok t) :
    explicitNodes d = .ok (t.map NodeRecord.node) ∧
    ∀ rec ∈ t,
      rec.techFlags.map Prod.fst = techs ∧
      (∀ p ∈ rec.techFlags, p.2 = 0 ∨ p.2 = 1) ∧
      ∃ kv ∈ d, rec.techFlags =
        techs.map (fun y => (y, if y ∈ kv.2.techs then 1 else 0)) := by
  have hs := collectRows_spec techs d t (generate_node_matrix_ok d techs t h)
  refine ⟨hs.1, fun rec hrec => ?_⟩
  rcases hs.2 rec hrec with ⟨kv, hkv, hflags⟩
  refine ⟨?_, ?_, ⟨kv, hkv, hflags⟩⟩
  · rw [hflags, List.map_map]
    exact (List.map_congr_left (fun x _ => rfl)).trans (List.map_id techs)
  · intro p hp
    rw [hflags] at hp
    rcases List.mem_map.mp hp with ⟨y, hy, hyp⟩
    rw [← hyp]
    by_cases hm : y ∈ kv.2.techs
    · simp [hm]
    · simp [hm]

/-- Witness for C8 on a one-node mapping with two global technologies. -/
theorem node_matrix_invariants_witness :
    explicitNodes [("n1", ⟨"1", "w", [], ["wind"]⟩)] =
      .ok (([⟨"n1", "1", "w", [], [("solar", 0), ("wind", 1)]⟩] :
        List NodeRecord).map NodeRecord.node) ∧
    ((⟨"n1", "1", "w", [], [("solar", 0), ("wind", 1)]⟩ :
      NodeRecord).techFlags.map Prod.fst = ["solar", "wind"]) :=
  ⟨(node_matrix_invariants [("n1", ⟨"1", "w", [], ["wind"]⟩)] ["solar", "wind"]
      [⟨"n1", "1", "w", [], [("solar", 0), ("wind", 1)]⟩] rfl).1,
    ((node_matrix_invariants [("n1", ⟨"1", "w", [], ["wind"]⟩)] ["solar", "wind"]
      [⟨"n1", "1", "w", [], [("solar", 0), ("wind", 1)]⟩] rfl).2
      ⟨"n1", "1", "w", [], [("solar", 0), ("wind", 1)]⟩
      (List.mem_singleton.mpr rfl)).1⟩

/-! ### Claim C5 -/

/-- C5 (counterexample): the overlapping compact keys `1--2` and `2--3`
expand to a duplicated explicit node `2`, and `generate_node_matrix`
raises no error at all — it returns a table with a duplicated index. -/
theorem node_matrix_duplicate_no_error :
    generate_node_matrix
      [("1--2", ⟨"0", "x", [], []⟩), ("2--3", ⟨"0", "x", [], []⟩)] [] =
      .ok [⟨"1", "0", "x", [], []⟩, ⟨"2", "0", "x", [], []⟩,
        ⟨"2", "0", "x", [], []⟩, ⟨"3", "0", "x", [], []⟩] := rfl

/-- C5 (amended): duplicate explicit identifiers arising from overlapping
compact keys across different entries are never detected: table assembly
succeeds, and the table keeps one record per occurrence in expansion
order — duplicates are neither merged nor overwritten, so each identifier
indexes as many records as its multiplicity in the expansion. -/
theorem duplicate_nodes_retained (d : List (String × NodeConfig)) (techs : List String)
    (t : List NodeRecord) (ns : List String)
    (h1 : generate_node_matrix d techs = .ok t)
    (h2 : explicitNodes d = .ok ns) :
    t.map NodeRecord.node = ns ∧
    ∀ nd : String, (t.filter (fun r => r.node == nd)).length = ns.count nd := by
  have hs := collectRows_spec techs d t (generate_node_matrix_ok d techs t h1)
  rw [hs.1] at h2
  injection h2 with h3
  refine ⟨h3, fun nd => ?_⟩
  rw [← h3, List.count_eq_countP, List.countP_map, ← List.countP_eq_length_filter]
  rfl

/-- Witness for C5 on the overlapping mapping: the duplicated identifier 2
indexes two records. -/
theorem duplicate_nodes_retained_witness :
    (([⟨"1", "0", "x", [], []⟩, ⟨"2", "0", "x", [], []⟩,
      ⟨"2", "0", "x", [], []⟩, ⟨"3", "0", "x", [], []⟩] :
      List NodeRecord).filter (fun r => r.node == "2")).length =
      ["1", "2", "2", "3"].count "2" :=
  (duplicate_nodes_retained
    [("1--2", ⟨"0", "x", [], []⟩), ("2--3", ⟨"0", "x", [], []⟩)] []
    [⟨"1", "0", "x", [], []⟩, ⟨"2", "0", "x", [], []⟩,
      ⟨"2", "0", "x", [], []⟩, ⟨"3", "0", "x", [], []⟩]
    ["1", "2", "2", "3"] rfl rfl).2 "2"

/-! ### Merge lemmas -/

theorem dsMerge_cons (l : List DVar) (v : DVar) (rest : List DVar) :
    dsMerge l (v :: rest) =
      match l.find? (fun u => u.name == v.name) with
      | some w => if w.val = v.val then dsMerge l rest else .error .mergeError
      | none => dsMerge (l ++ [v]) rest := rfl

theorem dsMerge_error_kind (r : List DVar) :
    ∀ (l : List DVar) (er : PyErr), dsMerge l r = .error er → er = .mergeError := by
  induction r with
  | nil =>
    intro l er h
    exact Except.noConfusion h
  | cons v rest ih =>
    intro l er h
    rw [dsMerge_cons] at h
    split at h
    · split at h
      · exact ih l er h
      · injection h with h1
        exact h1.symm
    · exact ih (l ++ [v]) er h

theorem dsMerge_ok_shape (r : List DVar) :
    ∀ (l m : List DVar), dsMerge l r = .ok m →
      (∃ m', m = l ++ m') ∧ ∀ v ∈ r, ∃ w ∈ m, w.name = v.name := by
  induction r with
  | nil =>
    intro l m h
    injection h with h1
    refine ⟨⟨[], by rw [← h1, List.append_nil]⟩, ?_⟩
    intro v hv
    exact absurd hv (List.not_mem_nil v)
  | cons v rest ih =>
    intro l m h
    rw [dsMerge_cons] at h
    split at h
    · rename_i w hw
      split at h
      · rename_i hval
        rcases ih l m h with ⟨⟨m', hm'⟩, hall⟩
        have hwin : w ∈ l := List.mem_of_find?_eq_some hw
        have hwp := List.find?_some hw
        have hwname : w.name = v.name := eq_of_beq hwp
        refine ⟨⟨m', hm'⟩, fun u hu => ?_⟩
        rcases List.mem_cons.mp hu with h1 | h1
        · exact ⟨w, by rw [hm']; exact List.mem_append_left _ hwin,
            by rw [h1]; exact hwname⟩
        · exact hall u h1
      · exact Except.noConfusion h
    · rcases ih (l ++ [v]) m h with ⟨⟨m', hm'⟩, hall⟩
      refine ⟨⟨[v] ++ m', by rw [hm', List.append_assoc]⟩, fun u hu => ?_⟩
      rcases List.mem_cons.mp hu with h1 | h1
      · refine ⟨v, ?_, by rw [h1]⟩
        rw [hm']
        exact List.mem_append_left _
          (List.mem_append_right _ (List.mem_singleton.mpr rfl))
      · exact hall u h1

theorem dsMerge_collision_error (r : List DVar) :
    ∀ l : List DVar,
      (∃ v ∈ r, ∃ w, l.find? (fun u => u.name == v.name) = some w ∧ w.val ≠ v.val) →
      ∃ er, dsMerge l r = .error er := by
  induction r with
  | nil =>
    intro l h
    rcases h with ⟨v, hv, _⟩
    exact absurd hv (List.not_mem_nil v)
  | cons v rest ih =>
    intro l h
    rcases h with ⟨v0, hv0, w0, hw0, hval0⟩
    rcases List.mem_cons.mp hv0 with h1 | h1
    · subst h1
      rw [dsMerge_cons]
      rw [hw0]
      show ∃ er,
        (if w0.val = v0.val then dsMerge l rest else .error .mergeError) = .error er
      rw [if_neg hval0]
      exact ⟨.mergeError, rfl⟩
    · rw [dsMerge_cons]
      cases hf : l.find? (fun u => u.name == v.name) with
      | some w =>
        show ∃ er,
          (if w.val = v.val then dsMerge l rest else .error .mergeError) = .error er
        by_cases hv : w.val = v.val
        · rw [if_pos hv]
          exact ih l ⟨v0, h1, w0, hw0, hval0⟩
        · rw [if_neg hv]
          exact ⟨.mergeError, rfl⟩
      | none =>
        show ∃ er, dsMerge (l ++ [v]) rest = .error er
        apply ih (l ++ [v])
        refine ⟨v0, h1, w0, ?_, hval0⟩
        rw [List.find?_append, hw0]
        rfl

/-! ### Claim C2 -/

/-- C2: when a `results` view already exists, `run` with
`force_rerun = false` raises `ModelError` before touching anything — the
outcome is the same error with the unchanged state for every possible
backend result, so the backend is never invoked and the dataset is not
modified; without an existing `results` view the `ModelError` is never
raised (other errors, such as a missing backend attribute, remain
possible). -/
theorem run_results_guard (st : ModelState) (r : List DVar) :
    (st.results.isSome → Model.run st r false = .error (.modelError, st)) ∧
    (st.results = none →
      ∀ e st', Model.run st r false = .error (e, st') → e ≠ .modelError) := by
  constructor
  · intro hs
    unfold Model.run
    rw [if_pos (by simp [hs])]
  · intro hn e st' h
    unfold Model.run at h
    rw [if_neg (by simp [hn])] at h
    split at h
    · injection h with h1
      injection h1 with h2 h3
      rw [← h2]
      decide
    · split at h
      · split at h
        · rename_i er hmg
          injection h with h1
          injection h1 with h2 h3
          have he : er = .mergeError := dsMerge_error_kind _ _ _ hmg
          rw [← h2, he]
          decide
        · exact Except.noConfusion h
      · injection h with h1
        injection h1 with h2 h3
        rw [← h2]
        decide

/-- Witness for C2: a state with results raises the guard error; a state
without results errors differently (missing backend attribute), and that
error is not `ModelError`. -/
theorem run_results_guard_witness :
    Model.run ⟨[("run.backend", "pyomo")], [⟨"y", 0, some 0⟩], some [⟨"z", 1, some 1⟩]⟩
      [] false =
      .error (.modelError,
        ⟨[("run.backend", "pyomo")], [⟨"y", 0, some 0⟩], some [⟨"z", 1, some 1⟩]⟩) ∧
    PyErr.keyError ≠ PyErr.modelError :=
  ⟨(run_results_guard
      ⟨[("run.backend", "pyomo")], [⟨"y", 0, some 0⟩], some [⟨"z", 1, some 1⟩]⟩ []).1
      rfl,
    (run_results_guard ⟨[], [], none⟩ []).2 rfl .keyError ⟨[], [], none⟩ rfl⟩

/-! ### Claim C3 -/

/-- C3 (code_bug evidence): `run` promises that with `force_rerun = True`
"any existing results will be overwritten", but `Dataset.merge` never
overwrites.  First conjunct: when the second backend run returns `x = 2`
while the dataset already holds the result `x = 1`, the merge raises
`MergeError` and the model state is untouched — the rerun does not
succeed.  Second conjunct: when the second run returns a disjoint
variable, the stale first-run result survives the merge, so the `results`
view holds the union of both runs, not exactly the second run's
variables. -/
theorem run_force_rerun_conflict_and_stale :
    Model.run ⟨[("run.backend", "pyomo")], [⟨"x", 1, some 1⟩], some [⟨"x", 1, some 1⟩]⟩
      [⟨"x", 2, none⟩] true =
      .error (.mergeError,
        ⟨[("run.backend", "pyomo")], [⟨"x", 1, some 1⟩], some [⟨"x", 1, some 1⟩]⟩) ∧
    Model.run
      ⟨[("run.backend", "pyomo")], [⟨"old", 1, some 1⟩], some [⟨"old", 1, some 1⟩]⟩
      [⟨"new", 2, none⟩] true =
      .ok ⟨[("run.backend", "pyomo")], [⟨"old", 1, some 1⟩, ⟨"new", 2, some 1⟩],
        some [⟨"old", 1, some 1⟩, ⟨"new", 2, some 1⟩]⟩ :=
  ⟨rfl, rfl⟩

/-! ### Claim C4 -/

/-- C4: the merge step of `run` is atomic and loud.  If `run` raises, the
model's dataset is exactly the one from before the merge attempt; if the
merge succeeds, every variable returned by the backend is present (by
name) in the merged dataset; and a naming collision between a backend
variable and an existing non-result variable holding a different value
makes `run` fail rather than silently dropping data. -/
theorem run_merge_atomicity (st : ModelState) (r : List DVar) :
    (∀ e st', Model.run st r true = .error (e, st') → st'.model_data = st.model_data) ∧
    (∀ st', Model.run st r true = .ok st' →
      ∀ v ∈ r, ∃ w ∈ st'.model_data, w.name = v.name) ∧
    ((∃ v ∈ r, ∃ w, st.model_data.find? (fun u => u.name == v.name) = some w ∧
        w.val ≠ v.val ∧ w.is_result ≠ some 1) →
      ∃ e st', Model.run st r true = .error (e, st')) := by
  refine ⟨?_, ?_, ?_⟩
  · intro e st' h
    unfold Model.run at h
    rw [if_neg (by simp)] at h
    split at h
    · injection h with h1
      injection h1 with h2 h3
      rw [← h3]
    · split at h
      · split at h
        · injection h with h1
          injection h1 with h2 h3
          rw [← h3]
        · exact Except.noConfusion h
      · injection h with h1
        injection h1 with h2 h3
        rw [← h3]
  · intro st' h v hv
    unfold Model.run at h
    rw [if_neg (by simp)] at h
    split at h
    · exact Except.noConfusion h
    · split at h
      · split at h
        · exact Except.noConfusion h
        · rename_i merged hmg
          injection h with h1
          rcases dsMerge_ok_shape (tagResults r) st.model_data merged hmg with ⟨_, hall⟩
          have hvt : ({ v with is_result := some 1 } : DVar) ∈ tagResults r :=
            List.mem_map.mpr ⟨v, hv, rfl⟩
          rcases hall _ hvt with ⟨w, hwm, hwn⟩
          refine ⟨w, ?_, hwn⟩
          rw [← h1]
          exact hwm
      · exact Except.noConfusion h
  · intro hc
    rcases hc with ⟨v, hv, w, hw, hval, _⟩
    have hcol : ∃ v' ∈ tagResults r, ∃ w',
        st.model_data.find? (fun u => u.name == v'.name) = some w' ∧ w'.val ≠ v'.val := by
      refine ⟨{ v with is_result := some 1 }, List.mem_map.mpr ⟨v, hv, rfl⟩, w, hw, hval⟩
    rcases dsMerge_collision_error (tagResults r) st.model_data hcol with ⟨er, hmerr⟩
    unfold Model.run
    rw [if_neg (by simp)]
    cases hl : lookupAttr st.attrs "run.backend" with
    | none => exact ⟨.keyError, st, rfl⟩
    | some b =>
      show ∃ e st',
        (if b = "pyomo" then
          match dsMerge st.model_data (tagResults r) with
          | Except.error er => Except.error (er, st)
          | Except.ok merged =>
            Except.ok { st with
              model_data := merged
              results := some (filterByIsResult merged 1) }
        else Except.error (PyErr.keyError, st)) = Except.error (e, st')
      by_cases hb : b = "pyomo"
      · rw [if_pos hb, hmerr]
        exact ⟨er, st, rfl⟩
      · rw [if_neg hb]
        exact ⟨.keyError, st, rfl⟩

/-- Witness for C4: a backend variable colliding with the differing-value
input variable `inp` makes `run` raise. -/
theorem run_merge_atomicity_witness :
    ∃ e st', Model.run ⟨[("run.backend", "pyomo")], [⟨"inp", 5, some 0⟩], none⟩
      [⟨"inp", 7, none⟩] true = .error (e, st') :=
  (run_merge_atomicity ⟨[("run.backend", "pyomo")], [⟨"inp", 5, some 0⟩], none⟩
      [⟨"inp", 7, none⟩]).2.2
    ⟨⟨"inp", 7, none⟩, List.mem_singleton.mpr rfl,
      ⟨"inp", 5, some 0⟩, rfl, by decide, by decide⟩

/-! ### Claim C9 -/

/-- C9 (counterexample): supplying a dataset together with a path config
does not fail — the config takes precedence and the dataset is silently
ignored. -/
theorem model_init_config_and_data_ok :
    Model.init (.pathStr "model.yaml") (some [⟨"v", 0, some 0⟩]) =
      .ok (.fromPath "model.yaml") := rfl

/-- C9 (amended): `Model.__init__` dispatches on `config` first: a string
is always treated as a path and a dict as an in-memory configuration,
even when a dataset is also supplied (the dataset is then ignored, not
rejected); the dataset is used only when `config` is explicitly `None`;
supplying neither, or a config of another type, fails with `ValueError`
(not a calliope `ConfigurationError`). -/
theorem model_init_dispatch (s : String) (md : Option (List DVar)) :
    Model.init (.pathStr s) md = .ok (.fromPath s) ∧
    Model.init .confDict md = .ok .fromDict ∧
    (∀ ds : List DVar, Model.init .noneArg (some ds) = .ok .fromData) ∧
    Model.init .noneArg none = .error .valueError ∧
    Model.init .otherArg md = .error .valueError :=
  ⟨rfl, rfl, fun _ => rfl, rfl, rfl⟩

/-! ### Claim C10 -/

/-- C10 (counterexample): a deterministic-seed option set to `0` is falsy,
so `np.random.seed` is never called and the clustering outcome still
depends on the ambient generator state — two builds with the same seed 0
but different ambient states can differ. -/
theorem seed_zero_not_reproducible :
    buildTimeData (fun s _ => s) (fun x => x) ⟨some 0, true⟩ 1 0 ≠
      buildTimeData (fun s _ => s) (fun x => x) ⟨some 0, true⟩ 2 0 := by
  decide

/-- C10 (amended): for every truthy (nonzero) seed value, the build path
seeds the generator with that seed before clustering, so the clustered
dataset is independent of the ambient generator state — reproducible for
repeated builds with the same seed; a seed of `0` (or an absent seed)
leaves the generator unseeded. -/
theorem seeded_clustering_reproducible (cluster : Int → Int → Int)
    (finalize : Int → Int) (mr : ModelRunCfg) (a1 a2 d : Int)
    (h : ∃ s, mr.random_seed = some s ∧ s ≠ 0) :
    buildTimeData cluster finalize mr a1 d = buildTimeData cluster finalize mr a2 d := by
  rcases h with ⟨s, hs, hnz⟩
  have hss : ∀ a : Int, seededState mr.random_seed a = s := by
    intro a
    unfold seededState
    rw [hs]
    show (if s ≠ 0 then s else a) = s
    rw [if_pos hnz]
  unfold buildTimeData
  rw [hss a1, hss a2]

/-- Witness for C10 with the concrete seed 42 and two distinct ambient
generator states. -/
theorem seeded_clustering_reproducible_witness :
    buildTimeData (fun s x => s + x) (fun x => x) ⟨some 42, true⟩ 1 0 =
      buildTimeData (fun s x => s + x) (fun x => x) ⟨some 42, true⟩ 2 0 :=
  seeded_clustering_reproducible (fun s x => s + x) (fun x => x) ⟨some 42, true⟩ 1 2 0
    ⟨42, rfl, by decide⟩
